import Mathlib

/-!
# Verification of LittleAngelBot context management, planning and history store

Shallow embedding of the Python sources (`context.py`, `ReCAP.py`,
`little_angel_bot.py`, `tools/ask_human_tool.py`).  Text is modelled as
`List Char` (Python strings, `len` counts code points).  External effects
(the LLM summarizer, the LLM planner, the base ReAct agent, timestamps and
the side-store file writer) are modelled as oracle parameters: every claim
proved here holds for all oracles, and counterexamples fix concrete ones.
-/

/-- Python strings are modelled as lists of characters. -/
abbrev Str := List Char

/-- Convert a Lean string literal to the model representation. -/
def str (s : String) : Str := s.data

/-- Python's `str.strip()`: drop whitespace from both ends. -/
def stripChars (s : Str) : Str :=
  ((s.dropWhile Char.isWhitespace).reverse.dropWhile Char.isWhitespace).reverse

/-- Python's `needle in haystack` substring test. -/
def containsSub (haystack needle : Str) : Bool := decide (needle <:+: haystack)

/-- A chat message (`{"role": .., "content": .., "name"?: .., "tool_calls"?: ..}`).
`toolCalls` stands for the serialized (`json.dumps`) tool-call payload; `name`
is the tool name carried by `tool`-role messages. -/
structure Msg where
  role : Str
  content : Str
  name : Option Str := none
  toolCalls : Option Str := none
deriving DecidableEq

/-- The character count one message contributes in
`ContextWindowManager.estimate_tokens`: role label length plus one, content
length, and the length of the serialized tool-call payload if present. -/
def msgChars (m : Msg) : Nat :=
  m.role.length + 1 + m.content.length +
    (match m.toolCalls with
      | some tc => tc.length
      | none => 0)

/-- `ContextWindowManager.estimate_tokens`: total character count of role
labels, contents and serialized tool-call payloads, divided by 4 and rounded
up (`math.ceil`). -/
def estimateTokens (messages : List Msg) : Nat :=
  (messages.foldl (fun acc m => acc + msgChars m) 0 + 3) / 4

/-- The retained leading system message of `window_messages`/`compress_messages`:
`[messages[0]]` when `preserve_system` and the first role is `"system"`. -/
def sysPart (preserveSystem : Bool) (messages : List Msg) : List Msg :=
  match messages with
  | [] => []
  | m :: _ => if preserveSystem ∧ m.role = str "system" then [m] else []

/-- The body after the optional leading system message
(`messages[start_idx:]`). -/
def bodyPart (preserveSystem : Bool) (messages : List Msg) : List Msg :=
  match messages with
  | [] => []
  | m :: rest => if preserveSystem ∧ m.role = str "system" then rest else m :: rest

/-- The `while` loop of `window_messages`: drop the front of `keep` while the
window `system_msg ++ keep` is over budget and more than one message is kept. -/
def windowLoop (maxTokens : Nat) (systemMsg : List Msg) : List Msg → List Msg
  | [] => systemMsg
  | m :: rest =>
    if estimateTokens (systemMsg ++ m :: rest) > maxTokens ∧ rest.length ≥ 1 then
      windowLoop maxTokens systemMsg rest
    else
      systemMsg ++ m :: rest

/-- `ContextWindowManager.window_messages`.  `minKeep` is `self.min_keep`,
which the constructor normalizes to `max(1, min_keep)` (applied here). -/
def windowMessages (maxTokens minKeep : Nat) (messages : List Msg)
    (preserveSystem : Bool) : List Msg :=
  if messages = [] then []
  else if estimateTokens messages ≤ maxTokens then messages
  else
    let systemMsg := sysPart preserveSystem messages
    let body := bodyPart preserveSystem messages
    if body = [] then messages
    else
      let keep := body.drop (body.length - max 1 minKeep)
      windowLoop maxTokens systemMsg keep

/-- `ContextWindowManager.compress_messages`.  `summarize` is the oracle for
`_summarize_messages(removed, summarizer)` (an LLM call with a deterministic
fallback); the claims hold for every oracle. -/
def compressMessages (maxTokens : Nat) (summarize : List Msg → Str)
    (preserveSystem triggeredByNonAssistant : Bool) (messages : List Msg) :
    List Msg :=
  if messages = [] then []
  else if !triggeredByNonAssistant then messages
  else if estimateTokens messages < maxTokens then messages
  else
    let systemMsg := sysPart preserveSystem messages
    let body := bodyPart preserveSystem messages
    if body.length ≤ 3 then messages
    else
      let removed := body.take (body.length - 3)
      let kept := body.drop (body.length - 3)
      let summaryMsg : Msg := { role := str "user"
                                content := str "【ContextSummary】" ++ summarize removed }
      systemMsg ++ [summaryMsg] ++ kept

/-- The fixed marker opening every spill preface of `normalize_tool_output`. -/
def spillMarker : Str := str "该工具的返回结果因为超长被放到了"

/-- The preface text of `normalize_tool_output` for a given side-store write
result (`some relPath` when `_write_tool_output` succeeded, `none` when it
returned no path). -/
def spillPreface (spill : Option Str) : Str :=
  match spill with
  | some relPath =>
      spillMarker ++ str "（" ++ relPath ++
        str "）下，你需要完整内容请用read工具进行读取，现在只展示前1000个字符："
  | none =>
      spillMarker ++
        str "（未知路径）下，你需要完整内容请用read工具进行读取，现在只展示前1000个字符："

/-- `ContextWindowManager.normalize_tool_output` on string content.  `spill`
is the oracle for `_write_tool_output` combined with the `relpath`
computation (one fresh side-store location per call, or `none` on write
failure). -/
def normalizeToolOutput (spill : Option Str) (content : Str) : Str :=
  if content.length ≤ 10000 then content
  else if spillMarker <+: content then content
  else spillPreface spill ++ content.take 1000

/-! ## HistoryManager (the durable HistoryStore) -/

/-- One entry of the `compressed` audit list written by
`HistoryManager.maybe_compress`. -/
structure CompEntry where
  summary : Str
  count : Nat
  rounds : Nat
  timestamp : Str
deriving DecidableEq

/-- The fields of a persisted history record touched by the modelled
operations (`messages`, `rounds`, `compressed`); `name`, `created_at` and
`renamed` are carried along unchanged by all of them and are omitted. -/
structure HistoryData where
  messages : List Msg
  rounds : Nat
  compressed : List CompEntry := []
deriving DecidableEq

/-- Environment of a `HistoryManager`: the summarizer oracle
(`_summarize_messages`, an LLM call with deterministic fallback), the
`_timestamp()` oracle and the side-store oracle of the attached
`ContextWindowManager`. -/
structure HistEnv where
  summarize : List Msg → Str
  ts : Str
  spill : Option Str

/-- `HistoryManager._count_rounds`: `min(#user, #assistant)`. -/
def countRounds (messages : List Msg) : Nat :=
  min (messages.countP (fun m => m.role = str "user"))
      (messages.countP (fun m => m.role = str "assistant"))

/-- `HistoryManager._normalize_message`: long tool outputs of `tool`-role
messages (except the `skill` tool) are normalized through the context
manager. -/
def normalizeMessage (spill : Option Str) (m : Msg) : Msg :=
  if m.role = str "tool" ∧ m.name ≠ some (str "skill") then
    { m with content := normalizeToolOutput spill m.content }
  else m

/-- `HistoryManager.maybe_compress`: after a non-assistant insertion, when the
estimated tokens reach 60000 and more than 3 messages are stored, replace all
but the last 3 messages with one synthetic summary message and log the event.
Returns the `bool` result together with the updated record. -/
def maybeCompress (env : HistEnv) (triggeredByNonAssistant : Bool)
    (d : HistoryData) : Bool × HistoryData :=
  if !triggeredByNonAssistant then (false, d)
  else if estimateTokens d.messages < 60000 then (false, d)
  else if d.messages.length ≤ 3 then (false, d)
  else
    let removed := d.messages.take (d.messages.length - 3)
    let kept := d.messages.drop (d.messages.length - 3)
    let summary := env.summarize removed
    let newMessages : List Msg :=
      { role := str "user", content := str "【ContextSummary】" ++ summary } :: kept
    (true,
      { messages := newMessages
        rounds := countRounds newMessages
        compressed := d.compressed ++
          [{ summary := summary, count := removed.length,
             rounds := countRounds removed, timestamp := env.ts }] })

/-- `HistoryManager._append_full_history`: extend the unabridged mirror and
recompute its rounds. -/
def appendFull (msgs : List Msg) (full : HistoryData) : HistoryData :=
  { full with messages := full.messages ++ msgs,
              rounds := countRounds (full.messages ++ msgs) }

/-- `HistoryManager.append_message` acting on the record and its full mirror.
The single message dict is normalized in place, so the mirror receives the
normalized message as well; a non-assistant role then triggers
`maybe_compress` on the just-saved record. -/
def appendMessage (env : HistEnv) (role content : Str)
    (d full : HistoryData) : HistoryData × HistoryData :=
  let message := normalizeMessage env.spill { role := role, content := content }
  let msgs := d.messages ++ [message]
  let d1 : HistoryData := { d with messages := msgs, rounds := countRounds msgs }
  let full1 := appendFull [message] full
  if role ≠ str "assistant" then
    ((maybeCompress env true d1).2, full1)
  else
    (d1, full1)

/-- `HistoryManager.append_messages`: batch append.  The record stores copies
normalized one by one, while the mirror receives the original messages; any
non-assistant role among the normalized batch triggers `maybe_compress`. -/
def appendMessages (env : HistEnv) (messages : List Msg)
    (d full : HistoryData) : HistoryData × HistoryData :=
  if messages = [] then (d, full)
  else
    let normalized := messages.map (normalizeMessage env.spill)
    let msgs := d.messages ++ normalized
    let d1 : HistoryData := { d with messages := msgs, rounds := countRounds msgs }
    let full1 := appendFull messages full
    if normalized.any (fun m => m.role ≠ str "assistant") then
      ((maybeCompress env true d1).2, full1)
    else
      (d1, full1)

/-- `HistoryManager._truncate_file`: keep the first `keepCount` messages and
recompute rounds; a no-op when not more than `keepCount` are stored. -/
def truncateFile (keepCount : Nat) (d : HistoryData) : HistoryData :=
  if d.messages.length ≤ keepCount then d
  else
    { d with messages := d.messages.take keepCount,
             rounds := countRounds (d.messages.take keepCount) }

/-- `HistoryManager.truncate_history`: truncate the record and its mirror. -/
def truncateHistory (keepCount : Nat) (d full : HistoryData) :
    HistoryData × HistoryData :=
  (truncateFile keepCount d, truncateFile keepCount full)

/-- `LittleAngelBot.run_task` on a non-empty, non-command message with a
cancel checker that already returns true before any model call: the user
message is appended (establishing the rollback baseline first), the
cancellation check fires, `ConversationContext.rollback` truncates the record
and its mirror to the baseline, and `None` is returned. -/
def runTaskCancelled (env : HistEnv) (content : Str)
    (d full : HistoryData) : Option Str × HistoryData × HistoryData :=
  (none,
   truncateHistory d.messages.length
     (appendMessage env (str "user") content d full).1
     (appendMessage env (str "user") content d full).2)

/-! ## ReCAPAgent -/

/-- One parsed subtask (`{"task": .., "is_primitive": ..}` after
`_parse_plan`: the task text is non-empty after stripping whenever produced
by the parser, but the model does not rely on that). -/
structure Subtask where
  task : Str
  isPrimitive : Bool
deriving DecidableEq

/-- Result of `ReCAPAgent._solve`: the final text and the new-message delta
returned by the Python code, instrumented with two ghost counters — `own`,
the number of subtasks dispatched by this invocation's own loop, and
`total`, the number of subtask dispatches summed over all recursion
depths. -/
structure SolveRes where
  result : Str
  delta : List Msg
  own : Nat
  total : Nat
deriving DecidableEq

/-- Oracles for the external collaborators of `ReCAPAgent._solve`:
`plan` for `_plan` (context compression + LLM call + `_parse_plan`),
`refine` for `_refine` (arguments: task, remaining, subtask, result,
messages), `base` for `base_agent.run`, and `cancel` for a constant
`cancel_checker`. -/
structure RecapEnv where
  cancel : Bool
  plan : Str → List Msg → List Subtask
  refine : Str → List Subtask → Str → Str → List Msg → List Subtask
  base : List Msg → Str × List Msg

/-- Stand-in for `json.dumps` of a subtask list as used inside transcript
messages; no claim depends on this rendering (it is only ever consumed by
oracles). -/
def subtasksText (l : List Subtask) : Str :=
  str "[" ++
    (List.intercalate (str ", ")
      (l.map (fun s =>
        str "task: " ++ s.task ++ str ", is_primitive: " ++
          (if s.isPrimitive then str "true" else str "false")))) ++
  str "]"

/-- `ReCAPAgent._format_reinject`. -/
def formatReinject (taskText subtask result : Str) (remaining : List Subtask) : Str :=
  str "[ReCAP REINJECT]\nTask: " ++ taskText ++
  str "\nDone: " ++ subtask ++
  str "\nResult: " ++ result ++
  str "\nRemaining: " ++ subtasksText remaining

/-- `ReCAPAgent._needs_user_input`: empty results never pause; otherwise
pause on request-for-input keywords in the subtask text, a trailing question
mark on the stripped result, or a clarification-request phrase. -/
def needsUserInput (subtask result : Str) : Bool :=
  if result = [] then false
  else if [str "ask user", str "wait for user", str "need user",
           str "user input"].any (fun k => containsSub subtask k) then true
  else
    let text := stripChars result
    if decide (['?'] <:+ text) then true
    else
      [str "please", str "need", str "tell me", str "provide",
       str "could you", str "can you", str "what is",
       str "which"].any (fun h => containsSub text h)

/-- The standardized step-limit reply of `ReCAPAgent._solve`. -/
def recapLimitText : Str := str "Reached ReCAP step limit; returning partial result."

/-- The `while remaining:` loop of `ReCAPAgent._solve`.  The loop counter is
represented by the remaining step allowance `stepsLeft = max_steps -
step_count` (the source increments `step_count` and stops once it exceeds
`max_steps`); `deeper` is `some` of the recursive solver at `depth + 1`, or
`none` once `depth >= max_depth` (then every dispatch goes to the base
agent).  `acc` accumulates `new_messages`; `last` is `last_result`. -/
def solveLoop (env : RecapEnv) (deeper : Option (Str → List Msg → SolveRes))
    (taskText : Str) :
    Nat → List Subtask → List Msg → Str → List Msg → Nat → Nat → SolveRes
  | _, [], _, last, acc, own, total => ⟨last, acc, own, total⟩
  | 0, _ :: _, _, last, acc, own, total =>
    if env.cancel then ⟨[], [], own, total⟩
    else
      ⟨if last = [] then recapLimitText else last,
       acc ++ [{ role := str "assistant", content := recapLimitText }], own, total⟩
  | stepsLeft' + 1, current :: rest, messages, last, acc, own, total =>
    if env.cancel then ⟨[], [], own, total⟩
    else
      let subtask := stripChars current.task
      if subtask = [] then
        solveLoop env deeper taskText stepsLeft' rest messages last acc own total
      else
        let subtaskMsg : Msg := { role := str "user", content := str "[Subtask] " ++ subtask }
        let messages1 := messages ++ [subtaskMsg]
        let dispatched : Str × List Msg × Nat :=
          if current.isPrimitive then
            ((env.base messages1).1, (env.base messages1).2, 0)
          else
            match deeper with
            | none => ((env.base messages1).1, (env.base messages1).2, 0)
            | some f =>
              let res := f subtask messages1
              (res.result, res.delta, res.total)
          let result := dispatched.1
          let subNew := dispatched.2.1
          let messages2 := messages1 ++ subNew
          let acc1 := acc ++ [subtaskMsg] ++ subNew
          let own1 := own + 1
          let total1 := total + 1 + dispatched.2.2
          if needsUserInput subtask result then ⟨result, acc1, own1, total1⟩
          else
            let reinject : Msg :=
              { role := str "assistant"
                content := formatReinject taskText subtask result rest }
            let messages3 := messages2 ++ [reinject]
            let acc2 := acc1 ++ [reinject]
            if rest ≠ [] then
              let refined := env.refine taskText rest subtask result messages3
              if refined ≠ [] then
                let refineMsg : Msg :=
                  { role := str "assistant"
                    content := str "[ReCAP UPDATE]\n" ++ subtasksText refined }
                solveLoop env deeper taskText stepsLeft' refined
                  (messages3 ++ [refineMsg]) result (acc2 ++ [refineMsg]) own1 total1
              else
                solveLoop env deeper taskText stepsLeft' rest messages3 result acc2 own1 total1
            else
              solveLoop env deeper taskText stepsLeft' rest messages3 result acc2 own1 total1

/-- The effective plan of one `_solve` node: the parsed subtasks, or the
single-primitive fallback plan when the planner returned none. -/
def solvePlan (env : RecapEnv) (taskText : Str) (messages : List Msg) :
    List Subtask :=
  if env.plan taskText messages = [] then [⟨taskText, true⟩]
  else env.plan taskText messages

/-- The `[ReCAP PLAN]` transcript message recording the effective plan. -/
def planMsgOf (env : RecapEnv) (taskText : Str) (messages : List Msg) : Msg :=
  { role := str "assistant"
    content := str "[ReCAP PLAN]\n" ++ subtasksText (solvePlan env taskText messages) }

/-- The body of `ReCAPAgent._solve` at one recursion node: cancellation
check, planning with single-primitive fallback, then the subtask loop. -/
def solveBody (env : RecapEnv) (maxSteps : Nat)
    (deeper : Option (Str → List Msg → SolveRes))
    (taskText : Str) (messages : List Msg) : SolveRes :=
  if env.cancel then ⟨[], [], 0, 0⟩
  else
    solveLoop env deeper taskText maxSteps (solvePlan env taskText messages)
      (messages ++ [planMsgOf env taskText messages]) []
      [planMsgOf env taskText messages] 0 0

/-- `ReCAPAgent._solve`, with the recursion depth represented by the
remaining allowance `depthLeft = max_depth - depth` (the source recurses at
`depth + 1` only while `depth < max_depth`, dispatching to the base agent
once the ceiling is reached). -/
def solve (env : RecapEnv) (maxSteps : Nat) :
    Nat → Str → List Msg → SolveRes
  | 0, taskText, messages => solveBody env maxSteps none taskText messages
  | depthLeft + 1, taskText, messages =>
      solveBody env maxSteps (some (solve env maxSteps depthLeft)) taskText messages

/-- `ReCAPAgent._latest_user_task`. -/
def latestUserTask (messages : List Msg) : Str :=
  match messages.reverse.find? (fun m => m.role == str "user") with
  | some m => stripChars m.content
  | none => []

/-- `ReCAPAgent.run` on a plain message list: solve the latest user task at
depth 0 (i.e. full depth allowance `max_depth`). -/
def recapRun (env : RecapEnv) (maxDepth maxSteps : Nat)
    (history : List Msg) : Str × List Msg :=
  if latestUserTask history = [] then ([], [])
  else
    ((solve env maxSteps maxDepth (latestUserTask history) history).result,
     (solve env maxSteps maxDepth (latestUserTask history) history).delta)

/-! ## AskHumanManager -/

/-- One pending question slot: the question, the answer once provided, and
whether the wait event has been signalled. -/
structure PendingEntry where
  response : Option Str
  signaled : Bool
  question : Str
deriving DecidableEq

/-- The `AskHumanManager._pending` dict: at most one entry per user id. -/
abbrev PendingMap := Str → Option PendingEntry

/-- The registration step of `AskHumanManager.ask`: install a fresh pending
entry for the user (overwriting any previous one). -/
def askStart (userId question : Str) (m : PendingMap) : PendingMap :=
  fun u => if u = userId then some ⟨none, false, question⟩ else m u

/-- The completion step of `AskHumanManager.ask`, taken once the entry's
event has been signalled: pop the entry and return the stripped response
(empty when the entry vanished or no response was stored). -/
def askFinish (userId : Str) (m : PendingMap) : Str × PendingMap :=
  match m userId with
  | none => ([], m)
  | some e =>
    ((match e.response with
      | none => []
      | some r => stripChars r),
     fun u => if u = userId then none else m u)

/-- `AskHumanManager.provide`: answer a pending question (returns `false`
and leaves the map unchanged when none is pending). -/
def provide (userId response : Str) (m : PendingMap) : Bool × PendingMap :=
  match m userId with
  | none => (false, m)
  | some e =>
    (true, fun u => if u = userId then some ⟨some response, true, e.question⟩ else m u)

/-- `AskHumanManager.cancel`: resolve a pending question with the empty
string; a no-op when nothing is pending. -/
def cancelAsk (userId : Str) (m : PendingMap) : PendingMap :=
  match m userId with
  | none => m
  | some e => fun u => if u = userId then some ⟨some [], true, e.question⟩ else m u

/-- C1 counterexample: a 5-message list whose estimated tokens equal the
budget exactly is *not* returned unchanged — `compress_messages` fires at
`>=` budget, not only strictly above it. -/
def exC1 : List Msg :=
  [⟨str "user", str "aaaaaaaaaaaaaaa", none, none⟩,
   ⟨str "user", [], none, none⟩, ⟨str "user", [], none, none⟩,
   ⟨str "user", [], none, none⟩, ⟨str "user", [], none, none⟩]

/-- C2 counterexample input: an oversized system message followed by one
tiny user message. -/
def exC2 : List Msg :=
  [⟨str "system", str "aaaaaaaaaaaaaaaaaaaaaaaaaaaaaaaaaaaaaaaa", none, none⟩,
   ⟨str "user", [], none, none⟩]

/-- A 240000-character content, enough to push a record past the hardcoded
60000-token auto-compression threshold on its own. -/
def bigStr : Str := List.replicate 240000 'a'

/-- C3 counterexample record: one system message followed by exactly 3 body
messages, estimating over the threshold. -/
def exC3Record : HistoryData where
  messages :=
    [⟨str "system", bigStr, none, none⟩,
     ⟨str "user", str "a", none, none⟩,
     ⟨str "assistant", str "b", none, none⟩,
     ⟨str "user", str "c", none, none⟩]
  rounds := 1
  compressed := []

/-- A concrete history environment for counterexamples. -/
def exHistEnv : HistEnv where
  summarize := fun _ => str "S"
  ts := str "t"
  spill := none

/-- C3 amended-claim witness record: one system message plus 2 body
messages, over the threshold. -/
def exC3Small : HistoryData where
  messages :=
    [⟨str "system", bigStr, none, none⟩,
     ⟨str "user", str "a", none, none⟩,
     ⟨str "assistant", str "b", none, none⟩]
  rounds := 1
  compressed := []

/-- C4 counterexample environment: the top task "T" plans one non-primitive
subtask "A", which plans one primitive subtask "B"; the base agent answers
"done". -/
def exRecapEnvC4 : RecapEnv where
  cancel := false
  plan := fun t _ =>
    if t = str "T" then [⟨str "A", false⟩]
    else if t = str "A" then [⟨str "B", true⟩]
    else []
  refine := fun _ _ _ _ _ => []
  base := fun _ => (str "done", [])

/-- C8 witness environment: every task plans `[A primitive, B primitive]`
and the base agent answers "ok?". -/
def exRecapEnvC8 : RecapEnv where
  cancel := false
  plan := fun _ _ => [⟨str "A", true⟩, ⟨str "B", true⟩]
  refine := fun _ _ _ _ _ => []
  base := fun _ => (str "ok?", [])

/-- An always-cancelled ReCAP environment (a cancel checker returning
true). -/
def exRecapEnvCancel : RecapEnv where
  cancel := true
  plan := fun _ _ => []
  refine := fun _ _ _ _ _ => []
  base := fun _ => ([], [])

/-- A small in-sync record for the C5 witness. -/
def exC5W : HistoryData where
  messages :=
    [⟨str "user", str "a", none, none⟩, ⟨str "assistant", str "b", none, none⟩]
  rounds := 1
  compressed := []

/-- C5 counterexample record: 5 small messages stored at session open. -/
def exC5D : HistoryData where
  messages :=
    [⟨str "user", str "a", none, none⟩,
     ⟨str "assistant", str "b", none, none⟩,
     ⟨str "user", str "c", none, none⟩,
     ⟨str "assistant", str "d", none, none⟩,
     ⟨str "user", str "e", none, none⟩]
  rounds := 2
  compressed := []

/-! ## Theorems -/

/-- The accumulating loop of `estimate_tokens` sums the per-message
character counts. -/
theorem foldl_msgChars (a : Nat) (l : List Msg) :
    l.foldl (fun acc m => acc + msgChars m) a = a + (l.map msgChars).sum := by
  induction l generalizing a with
  | nil => simp
  | cons m rest ih => simp [ih]; omega

/-- `estimate_tokens` as a map-sum. -/
theorem estimateTokens_eq (l : List Msg) :
    estimateTokens l = ((l.map msgChars).sum + 3) / 4 := by
  unfold estimateTokens
  rw [foldl_msgChars, Nat.zero_add]

/-- C9: `compress_messages` with `triggered_by_non_assistant=false` is the
identity on every non-empty message list, regardless of the estimated token
count. -/
theorem compress_not_triggered_identity (maxTokens : Nat)
    (summarize : List Msg → Str) (preserveSystem : Bool) (messages : List Msg)
    (h : messages ≠ []) :
    compressMessages maxTokens summarize preserveSystem false messages = messages := by
  simp [compressMessages, h]

/-- Witness for C9 at a concrete over-budget single message. -/
theorem compress_not_triggered_identity_witness :
    compressMessages 1 (fun _ => []) true false
        [⟨str "user", str "hello world", none, none⟩] =
      [⟨str "user", str "hello world", none, none⟩] :=
  compress_not_triggered_identity 1 (fun _ => []) true
    [⟨str "user", str "hello world", none, none⟩] (by decide)

/-- C7: `normalize_tool_output` passes content of at most 10000 characters
through unchanged; longer content (not already carrying the spill marker)
becomes the fixed-format preface naming the spill location plus the first
1000 characters; and the function is idempotent — a second application (with
any side-store outcome) returns the already-normalized string unchanged. -/
theorem normalize_tool_output_spec (spill spill2 : Option Str) (content : Str) :
    (content.length ≤ 10000 → normalizeToolOutput spill content = content) ∧
    (10000 < content.length → ¬ spillMarker <+: content →
      normalizeToolOutput spill content = spillPreface spill ++ content.take 1000) ∧
    normalizeToolOutput spill2 (normalizeToolOutput spill content) =
      normalizeToolOutput spill content := by
  refine ⟨fun h => by simp [normalizeToolOutput, h], fun h hpre => ?_, ?_⟩
  · rw [normalizeToolOutput, if_neg (by omega), if_neg hpre]
  · by_cases h1 : content.length ≤ 10000
    · have hout : normalizeToolOutput spill content = content := by
        rw [normalizeToolOutput, if_pos h1]
      rw [hout, normalizeToolOutput, if_pos h1]
    · by_cases h2 : spillMarker <+: content
      · have hout : normalizeToolOutput spill content = content := by
          rw [normalizeToolOutput, if_neg h1, if_pos h2]
        rw [hout, normalizeToolOutput, if_neg h1, if_pos h2]
      · have hout : normalizeToolOutput spill content =
            spillPreface spill ++ content.take 1000 := by
          rw [normalizeToolOutput, if_neg h1, if_neg h2]
        rw [hout]
        by_cases h3 : (spillPreface spill ++ content.take 1000).length ≤ 10000
        · rw [normalizeToolOutput, if_pos h3]
        · have hm : spillMarker <+: spillPreface spill ++ content.take 1000 := by
            cases spill <;>
              simp only [spillPreface, List.append_assoc] <;>
              exact List.prefix_append _ _
          rw [normalizeToolOutput, if_neg h3, if_pos hm]

/-- Witness for C7: a short string passes through; an 10001-character string
is spilled to the preface plus its first 1000 characters. -/
theorem normalize_tool_output_spec_witness :
    normalizeToolOutput (some (str "p")) (str "short") = str "short" ∧
    normalizeToolOutput none (List.replicate 10001 'a') =
      spillPreface none ++ (List.replicate 10001 'a').take 1000 :=
  ⟨(normalize_tool_output_spec (some (str "p")) none (str "short")).1 (by decide),
   (normalize_tool_output_spec none none (List.replicate 10001 'a')).2.1
     (Nat.lt_of_lt_of_eq (by decide) (List.length_replicate 10001 'a').symm)
     (by decide)⟩

set_option maxRecDepth 8000 in
/-- C1 counterexample theorem: `exC1` estimates to exactly the budget 10 and
is still compressed. -/
theorem compress_at_exact_budget_fires :
    estimateTokens exC1 = 10 ∧
    compressMessages 10 (fun _ => str "S") true true exC1 ≠ exC1 := by decide

/-- C1 (amended): `compress_messages` is a no-op unless triggered, the
estimated tokens *reach or exceed* the budget, and the non-system body has
more than 3 messages; on trigger the output is the optional leading system
message, one synthetic summary user message, and the last 3 body messages
verbatim. -/
theorem compress_messages_spec (maxTokens : Nat) (summarize : List Msg → Str)
    (preserveSystem triggered : Bool) (messages : List Msg) :
    (¬(triggered = true ∧ maxTokens ≤ estimateTokens messages ∧
        3 < (bodyPart preserveSystem messages).length) →
      compressMessages maxTokens summarize preserveSystem triggered messages =
        messages) ∧
    (triggered = true → maxTokens ≤ estimateTokens messages →
      3 < (bodyPart preserveSystem messages).length →
      compressMessages maxTokens summarize preserveSystem triggered messages =
        sysPart preserveSystem messages ++
        [{ role := str "user"
           content := str "【ContextSummary】" ++
             summarize ((bodyPart preserveSystem messages).take
               ((bodyPart preserveSystem messages).length - 3)) }] ++
        (bodyPart preserveSystem messages).drop
          ((bodyPart preserveSystem messages).length - 3)) := by
  constructor
  · intro h
    by_cases hm : messages = []
    · subst hm; simp [compressMessages]
    · by_cases ht : triggered = true
      · subst ht
        by_cases he : estimateTokens messages < maxTokens
        · simp [compressMessages, hm, he]
        · have hb : (bodyPart preserveSystem messages).length ≤ 3 := by
            push_neg at h
            have := h rfl (Nat.le_of_not_lt he)
            omega
          simp [compressMessages, hm, he, hb]
      · have ht' : triggered = false := by
          revert ht; cases triggered <;> simp
        simp [compressMessages, hm, ht']
  · intro ht he hb
    subst ht
    have hm : messages ≠ [] := by
      intro hcon
      rw [hcon] at hb
      simp [bodyPart] at hb
    simp [compressMessages, hm, Nat.not_lt.mpr he, Nat.not_le.mpr hb]

/-- Witness for C1 (amended): the no-trigger branch on an under-budget list
and the trigger branch on `exC1` with the exact-budget estimate. -/
theorem compress_messages_spec_witness :
    compressMessages 10 (fun _ => str "S") true false exC1 = exC1 ∧
    compressMessages 10 (fun _ => str "S") true true exC1 =
      sysPart true exC1 ++
      [{ role := str "user"
         content := str "【ContextSummary】" ++
           (fun _ => str "S") ((bodyPart true exC1).take
             ((bodyPart true exC1).length - 3)) }] ++
      (bodyPart true exC1).drop ((bodyPart true exC1).length - 3) :=
  ⟨(compress_messages_spec 10 (fun _ => str "S") true false exC1).1 (by decide),
   (compress_messages_spec 10 (fun _ => str "S") true true exC1).2
     rfl (by decide) (by decide)⟩

/-- The retained prefix and the body always recombine to the input. -/
theorem sysPart_append_bodyPart (preserveSystem : Bool) (messages : List Msg) :
    sysPart preserveSystem messages ++ bodyPart preserveSystem messages = messages := by
  cases messages with
  | nil => rfl
  | cons m rest =>
    by_cases h : preserveSystem ∧ m.role = str "system"
    · simp [sysPart, bodyPart, h]
    · simp [sysPart, bodyPart, h]

/-- The shrinking loop of `window_messages` returns the system part plus a
kept suffix, and stops only under budget or with a single kept message. -/
theorem windowLoop_spec (maxTokens : Nat) (systemMsg : List Msg) :
    ∀ keep : List Msg, ∃ kept,
      windowLoop maxTokens systemMsg keep = systemMsg ++ kept ∧
      (estimateTokens (systemMsg ++ kept) ≤ maxTokens ∨ kept.length ≤ 1) := by
  intro keep
  induction keep with
  | nil => exact ⟨[], by simp [windowLoop], Or.inr (by simp)⟩
  | cons m rest ih =>
    by_cases h : estimateTokens (systemMsg ++ m :: rest) > maxTokens ∧ rest.length ≥ 1
    · obtain ⟨kept, hk, hd⟩ := ih
      exact ⟨kept, by rw [windowLoop, if_pos h]; exact hk, hd⟩
    · refine ⟨m :: rest, by rw [windowLoop, if_neg h], ?_⟩
      rcases Classical.not_and_iff_or_not_not.mp h with h1 | h2
      · exact Or.inl (Nat.le_of_not_lt h1)
      · have hr : rest.length = 0 := by omega
        exact Or.inr (by simp [hr])

/-- C2 (amended): `window_messages` returns the input unchanged when it is
already at or under the budget; and the output estimates within the budget
whenever it retains more than one message *beyond the preserved leading
system message*.  (With a preserved system message the shrinking stops at
one body message, so the pair system message + one body message may still
exceed the budget.) -/
theorem window_messages_spec (maxTokens minKeep : Nat) (messages : List Msg)
    (preserveSystem : Bool) :
    (estimateTokens messages ≤ maxTokens →
      windowMessages maxTokens minKeep messages preserveSystem = messages) ∧
    ((sysPart preserveSystem messages).length + 1 <
        (windowMessages maxTokens minKeep messages preserveSystem).length →
      estimateTokens (windowMessages maxTokens minKeep messages preserveSystem) ≤
        maxTokens) := by
  constructor
  · intro h
    by_cases hm : messages = []
    · simp [windowMessages, hm]
    · simp [windowMessages, hm, h]
  · intro hlen
    by_cases hm : messages = []
    · simp [windowMessages, hm] at hlen
    · by_cases h : estimateTokens messages ≤ maxTokens
      · rwa [windowMessages, if_neg hm, if_pos h] at hlen ⊢
      · by_cases hb : bodyPart preserveSystem messages = []
        · exfalso
          have hcomb := sysPart_append_bodyPart preserveSystem messages
          rw [hb, List.append_nil] at hcomb
          rw [windowMessages, if_neg hm, if_neg h, if_pos hb] at hlen
          have hl := congrArg List.length hcomb
          omega
        · rw [windowMessages, if_neg hm, if_neg h, if_neg hb] at hlen ⊢
          obtain ⟨kept, hk, hd⟩ := windowLoop_spec maxTokens
            (sysPart preserveSystem messages)
            ((bodyPart preserveSystem messages).drop
              ((bodyPart preserveSystem messages).length - max 1 minKeep))
          rw [hk] at hlen ⊢
          rcases hd with hd | hd
          · exact hd
          · rw [List.length_append] at hlen
            omega

/-- Witness for C2 (amended): an under-budget 3-message list is returned
unchanged, and since the result keeps more than one non-system message its
estimate is within the budget. -/
theorem window_messages_spec_witness :
    windowMessages 100 6 exC1 true = exC1 ∧
    estimateTokens (windowMessages 100 6 exC1 true) ≤ 100 :=
  ⟨(window_messages_spec 100 6 exC1 true).1 (by decide),
   (window_messages_spec 100 6 exC1 true).2 (by decide)⟩

set_option maxRecDepth 8000 in
/-- C2 counterexample: with `preserve_system` true the windowed output can
keep more than one message (the system message plus the last body message)
while still exceeding the budget. -/
theorem window_messages_over_budget_output :
    1 < (windowMessages 1 6 exC2 true).length ∧
    ¬ estimateTokens (windowMessages 1 6 exC2 true) ≤ 1 := by decide

/-- A system message's character contribution, for arbitrary content. -/
theorem msgChars_system (c : Str) :
    msgChars ⟨str "system", c, none, none⟩ = c.length + 7 := by
  show 6 + 1 + c.length + 0 = c.length + 7
  omega

/-- A user message's character contribution, for arbitrary content. -/
theorem msgChars_user (c : Str) :
    msgChars ⟨str "user", c, none, none⟩ = c.length + 5 := by
  show 4 + 1 + c.length + 0 = c.length + 5
  omega

/-- The estimate of the C3 record: `ceil(240030 / 4)`. -/
theorem estimate_exC3 : estimateTokens exC3Record.messages = 60008 := by
  have hbig : bigStr.length = 240000 := List.length_replicate 240000 'a'
  have h2 : msgChars ⟨str "user", str "a", none, none⟩ = 6 := by decide
  have h3 : msgChars ⟨str "assistant", str "b", none, none⟩ = 11 := by decide
  have h4 : msgChars ⟨str "user", str "c", none, none⟩ = 6 := by decide
  rw [estimateTokens_eq]
  rw [show exC3Record.messages =
    [⟨str "system", bigStr, none, none⟩,
     ⟨str "user", str "a", none, none⟩,
     ⟨str "assistant", str "b", none, none⟩,
     ⟨str "user", str "c", none, none⟩] from rfl]
  rw [List.map_cons, List.map_cons, List.map_cons, List.map_cons, List.map_nil,
    msgChars_system, h2, h3, h4,
    List.sum_cons, List.sum_cons, List.sum_cons, List.sum_cons, List.sum_nil,
    hbig]
  norm_num

/-- Unfolding lemma for a firing `maybe_compress`: flag true, and the
retained messages become the synthetic summary user message followed by the
last 3 stored messages. -/
theorem maybeCompress_fires (env : HistEnv) (d : HistoryData)
    (he : ¬ estimateTokens d.messages < 60000)
    (hl : ¬ d.messages.length ≤ 3) :
    (maybeCompress env true d).1 = true ∧
    (maybeCompress env true d).2.messages =
      { role := str "user"
        content := str "【ContextSummary】" ++
          env.summarize (d.messages.take (d.messages.length - 3)) } ::
        d.messages.drop (d.messages.length - 3) := by
  unfold maybeCompress
  rw [if_neg (by decide), if_neg he, if_neg hl]
  exact ⟨rfl, rfl⟩

/-- C3 counterexample: `maybe_compress` counts the leading system message in
its `<= 3` guard, so a record of one system message plus exactly 3 body
messages at the threshold *is* compressed, and the system message is folded
into the summarized span (the claim says no compression occurs). -/
theorem maybe_compress_three_body_fires :
    exC3Record.messages.map Msg.role =
      [str "system", str "user", str "assistant", str "user"] ∧
    (maybeCompress exHistEnv true exC3Record).1 = true ∧
    (maybeCompress exHistEnv true exC3Record).2.messages.map Msg.role =
      [str "user", str "user", str "assistant", str "user"] := by
  have he : ¬ (estimateTokens exC3Record.messages < 60000) := by
    rw [estimate_exC3]; norm_num
  have hl : ¬ (exC3Record.messages.length ≤ 3) := by
    rw [show exC3Record.messages.length = 4 from rfl]; norm_num
  obtain ⟨h1, h2⟩ := maybeCompress_fires exHistEnv exC3Record he hl
  refine ⟨by decide, h1, ?_⟩
  rw [h2]
  rw [show exC3Record.messages.drop (exC3Record.messages.length - 3) =
    [⟨str "user", str "a", none, none⟩,
     ⟨str "assistant", str "b", none, none⟩,
     ⟨str "user", str "c", none, none⟩] from rfl]
  rw [List.map_cons, List.map_cons, List.map_cons, List.map_cons, List.map_nil]

/-- C3 (amended): `maybe_compress` never fires when the *total* stored
message count (the leading system message included) is at most 3 — the
guard is on all messages, not on the body after a system message. -/
theorem maybe_compress_small_record_noop (env : HistEnv) (trig : Bool)
    (d : HistoryData) (h : d.messages.length ≤ 3) :
    maybeCompress env trig d = (false, d) := by
  by_cases ht : trig = true
  · subst ht
    by_cases he : estimateTokens d.messages < 60000 <;>
      simp [maybeCompress, he, h]
  · have ht' : trig = false := by revert ht; cases trig <;> simp
    simp [maybeCompress, ht']

/-- Witness for C3 (amended): a 3-message record over the threshold is left
unchanged. -/
theorem maybe_compress_small_record_noop_witness :
    maybeCompress exHistEnv true exC3Small = (false, exC3Small) :=
  maybe_compress_small_record_noop exHistEnv true exC3Small (by decide)

/-- C4 counterexample: with `max_steps = 1`, one top-level `_solve` call
performs 2 subtask executions in total (one per recursion depth) — the step
counter is reset at each recursion depth, so the ceiling is not global. -/
theorem recap_step_ceiling_not_global :
    ¬ ((solve exRecapEnvC4 1 1 (str "T") []).total ≤ 1) ∧
    (solve exRecapEnvC4 1 1 (str "T") []).total = 2 := by decide

/-- The subtask loop dispatches at most `stepsLeft` further subtasks at its
own level. -/
theorem solveLoop_own_le (env : RecapEnv)
    (deeper : Option (Str → List Msg → SolveRes)) (taskText : Str) :
    ∀ (stepsLeft : Nat) (remaining : List Subtask) (messages : List Msg)
      (last : Str) (acc : List Msg) (own total : Nat),
      (solveLoop env deeper taskText stepsLeft remaining messages last acc
        own total).own ≤ own + stepsLeft := by
  intro stepsLeft
  induction stepsLeft with
  | zero =>
    intro remaining messages last acc own total
    cases remaining with
    | nil => simp [solveLoop]
    | cons current rest =>
      simp only [solveLoop]
      split <;> simp
  | succ n ih =>
    intro remaining messages last acc own total
    cases remaining with
    | nil => simp [solveLoop]
    | cons current rest =>
      simp only [solveLoop]
      repeat' split
      all_goals
        first
          | exact (ih _ _ _ _ _ _).trans (by omega)
          | (simp; try omega)

/-- C4 (amended): the step ceiling is enforced per `_solve` invocation — at
each recursion node at most `max_steps` subtasks are dispatched by that
node's own loop — and once the counter passes the ceiling the loop returns
the last partial result (or the standardized limit text when none exists)
after appending the standardized limit message. -/
theorem recap_step_ceiling_per_level (env : RecapEnv)
    (maxSteps depthLeft : Nat) (taskText : Str) (messages : List Msg)
    (deeper : Option (Str → List Msg → SolveRes)) :
    (solve env maxSteps depthLeft taskText messages).own ≤ maxSteps ∧
    (∀ (current : Subtask) (rest : List Subtask) (msgs : List Msg)
       (last : Str) (acc : List Msg) (own total : Nat),
      solveLoop env deeper taskText 0 (current :: rest) msgs last acc own total =
        if env.cancel then ⟨[], [], own, total⟩
        else
          ⟨if last = [] then recapLimitText else last,
           acc ++ [{ role := str "assistant", content := recapLimitText }],
           own, total⟩) := by
  constructor
  · have hbody : ∀ (dp : Option (Str → List Msg → SolveRes)),
        (solveBody env maxSteps dp taskText messages).own ≤ maxSteps := by
      intro dp
      unfold solveBody
      split
      · simp
      · exact (solveLoop_own_le env dp taskText maxSteps _ _ _ _ 0 0).trans
          (by omega)
    cases depthLeft with
    | zero => exact hbody none
    | succ n => exact hbody _
  · intro current rest msgs last acc own total
    rfl

/-- A non-empty result whose stripped text ends in a question mark always
pauses for user input. -/
theorem needsUserInput_of_question (subtask result : Str)
    (hne : result ≠ []) (hq : ['?'] <:+ stripChars result) :
    needsUserInput subtask result = true := by
  unfold needsUserInput
  rw [if_neg hne]
  by_cases hk : [str "ask user", str "wait for user", str "need user",
      str "user input"].any (fun k => containsSub subtask k) = true
  · rw [if_pos hk]
  · rw [if_neg hk, if_pos (decide_eq_true hq)]

/-- C8: when the plan for a task is two primitive subtasks `a` then `b` and
executing `a` produces a non-empty result whose stripped text ends in `?`,
`_solve` stops at once and returns that result, having dispatched exactly
one subtask — `b` is never attempted (the total dispatch count is 1). -/
theorem recap_pause_on_question (env : RecapEnv) (maxSteps depthLeft : Nat)
    (taskText a b r : Str) (messages : List Msg)
    (hc : env.cancel = false)
    (hplan : env.plan taskText messages = [⟨a, true⟩, ⟨b, true⟩])
    (ha : stripChars a ≠ [])
    (hsteps : 1 ≤ maxSteps)
    (hr : (env.base ((messages ++
        [{ role := str "assistant"
           content := str "[ReCAP PLAN]\n" ++ subtasksText [⟨a, true⟩, ⟨b, true⟩] }]) ++
        [{ role := str "user", content := str "[Subtask] " ++ stripChars a }])).1 = r)
    (hne : r ≠ [])
    (hq : ['?'] <:+ stripChars r) :
    (solve env maxSteps depthLeft taskText messages).result = r ∧
    (solve env maxSteps depthLeft taskText messages).total = 1 := by
  have hcancel : ¬ (env.cancel = true) := by rw [hc]; exact Bool.false_ne_true
  obtain ⟨m, rfl⟩ : ∃ m, maxSteps = m + 1 := by
    cases maxSteps with
    | zero => omega
    | succ m => exact ⟨m, rfl⟩
  have hplan' : solvePlan env taskText messages = [⟨a, true⟩, ⟨b, true⟩] := by
    unfold solvePlan
    rw [hplan]
    rw [if_neg (by simp : ¬ ([⟨a, true⟩, ⟨b, true⟩] : List Subtask) = [])]
  have hmsg : planMsgOf env taskText messages =
      { role := str "assistant"
        content := str "[ReCAP PLAN]\n" ++ subtasksText [⟨a, true⟩, ⟨b, true⟩] } := by
    unfold planMsgOf
    rw [hplan']
  have hbody : ∀ (dp : Option (Str → List Msg → SolveRes)),
      (solveBody env (m + 1) dp taskText messages).result = r ∧
      (solveBody env (m + 1) dp taskText messages).total = 1 := by
    intro dp
    unfold solveBody
    rw [if_neg hcancel, hplan', hmsg]
    simp only [solveLoop]
    rw [if_neg hcancel]
    rw [if_neg ha]
    simp only [if_true]
    rw [hr]
    rw [needsUserInput_of_question (stripChars a) r hne hq]
    simp
  cases depthLeft with
  | zero => exact hbody none
  | succ n => exact hbody _

/-- Witness for C8: with the plan `[A, B]` and "ok?" from subtask A, the
solver returns "ok?" after exactly one dispatch. -/
theorem recap_pause_on_question_witness :
    (solve exRecapEnvC8 5 3 (str "T") []).result = str "ok?" ∧
    (solve exRecapEnvC8 5 3 (str "T") []).total = 1 :=
  recap_pause_on_question exRecapEnvC8 5 3 (str "T") (str "A") (str "B")
    (str "ok?") [] rfl rfl (by decide) (by decide) rfl (by decide) (by decide)

/-- `normalize_message` is the identity on non-tool-role messages. -/
theorem normalizeMessage_not_tool (spill : Option Str) (m : Msg)
    (h : ¬ m.role = str "tool") : normalizeMessage spill m = m := by
  unfold normalizeMessage
  rw [if_neg]
  rintro ⟨h1, _⟩
  exact h h1

/-- Unfolding `append_message` without its intermediate bindings. -/
theorem appendMessage_eq (env : HistEnv) (role content : Str)
    (d full : HistoryData) :
    appendMessage env role content d full =
      (if role ≠ str "assistant" then
        ((maybeCompress env true
          { messages := d.messages ++
              [normalizeMessage env.spill ⟨role, content, none, none⟩]
            rounds := countRounds (d.messages ++
              [normalizeMessage env.spill ⟨role, content, none, none⟩])
            compressed := d.compressed }).2,
         appendFull [normalizeMessage env.spill ⟨role, content, none, none⟩] full)
      else
        ({ messages := d.messages ++
            [normalizeMessage env.spill ⟨role, content, none, none⟩]
           rounds := countRounds (d.messages ++
             [normalizeMessage env.spill ⟨role, content, none, none⟩])
           compressed := d.compressed },
         appendFull [normalizeMessage env.spill ⟨role, content, none, none⟩] full)) :=
  rfl

/-- Truncation keeps `min(stored, keepCount)` messages. -/
theorem truncateFile_length (keepCount : Nat) (d : HistoryData) :
    (truncateFile keepCount d).messages.length =
      min d.messages.length keepCount := by
  unfold truncateFile
  split
  · rename_i h
    rw [Nat.min_eq_left h]
  · simp [List.length_take, Nat.min_comm]

/-- `maybe_compress` keeps the stored message count, or reduces a record of
more than 3 messages to exactly 4. -/
theorem maybeCompress_length (env : HistEnv) (trig : Bool) (d : HistoryData) :
    (maybeCompress env trig d).2.messages.length = d.messages.length ∨
    ((maybeCompress env trig d).2.messages.length = 4 ∧
      4 ≤ d.messages.length) := by
  unfold maybeCompress
  split
  · exact Or.inl rfl
  · split
    · exact Or.inl rfl
    · split
      · exact Or.inl rfl
      · rename_i hlen
        refine Or.inr ⟨?_, by omega⟩
        show ({ role := str "user", content := _ } ::
          d.messages.drop (d.messages.length - 3) : List Msg).length = 4
        rw [List.length_cons, List.length_drop]
        omega

/-- The record component of `append_message` for a non-assistant role:
`maybe_compress` applied to the extended record. -/
theorem appendMessage_fst (env : HistEnv) (role content : Str)
    (d full : HistoryData) (h : role ≠ str "assistant") :
    (appendMessage env role content d full).1 =
      (maybeCompress env true
        { messages := d.messages ++
            [normalizeMessage env.spill ⟨role, content, none, none⟩]
          rounds := countRounds (d.messages ++
            [normalizeMessage env.spill ⟨role, content, none, none⟩])
          compressed := d.compressed }).2 := by
  rw [appendMessage_eq, if_pos h]

/-- The record component of a cancelled `run_task`: the baseline truncation
of the appended record. -/
theorem runTaskCancelled_record (env : HistEnv) (content : Str)
    (d full : HistoryData) :
    (runTaskCancelled env content d full).2.1 =
      truncateFile d.messages.length
        (appendMessage env (str "user") content d full).1 := rfl

/-- `maybe_compress` is a no-op whenever the stored estimate is under the
60000 threshold. -/
theorem maybeCompress_under_threshold (env : HistEnv) (trig : Bool)
    (d : HistoryData) (h : estimateTokens d.messages < 60000) :
    maybeCompress env trig d = (false, d) := by
  unfold maybeCompress
  split <;> simp [h]

/-- C5 (amended): with the cancellation flag set before any model call, the
ReCAP run returns an empty result with no new messages and `run_task`
returns `None`; rolling back leaves the stored record with *at most* the
baseline message count — and exactly the baseline content when the appended
user message did not push the record over the auto-compression threshold (in
which case an in-sync full mirror is also restored exactly). -/
theorem run_task_cancelled_spec (env : HistEnv) (renv : RecapEnv)
    (content : Str) (d full : HistoryData) (maxDepth maxSteps : Nat)
    (history : List Msg) (hc : renv.cancel = true) :
    recapRun renv maxDepth maxSteps history = ([], []) ∧
    (runTaskCancelled env content d full).1 = none ∧
    (runTaskCancelled env content d full).2.1.messages.length ≤
      d.messages.length ∧
    (estimateTokens (d.messages ++ [⟨str "user", content, none, none⟩]) < 60000 →
      (runTaskCancelled env content d full).2.1.messages = d.messages ∧
      (full.messages.length = d.messages.length →
        (runTaskCancelled env content d full).2.2.messages = full.messages)) := by
  have hbody : ∀ dp task msgs, solveBody renv maxSteps dp task msgs =
      ⟨[], [], 0, 0⟩ := by
    intro dp task msgs
    unfold solveBody
    rw [if_pos hc]
  have hsolve : ∀ dl task msgs, solve renv maxSteps dl task msgs =
      ⟨[], [], 0, 0⟩ := by
    intro dl task msgs
    cases dl with
    | zero => exact hbody none task msgs
    | succ n => exact hbody _ task msgs
  have humsg : normalizeMessage env.spill ⟨str "user", content, none, none⟩ =
      ⟨str "user", content, none, none⟩ :=
    normalizeMessage_not_tool _ _
      (by show ¬ str "user" = str "tool"; decide)
  have happ1 : (appendMessage env (str "user") content d full).1 =
      (maybeCompress env true
        { messages := d.messages ++ [⟨str "user", content, none, none⟩]
          rounds := countRounds (d.messages ++ [⟨str "user", content, none, none⟩])
          compressed := d.compressed }).2 := by
    rw [appendMessage_eq, humsg, if_pos (by decide : str "user" ≠ str "assistant")]
  have hrec1 : (runTaskCancelled env content d full).2.1 =
      truncateFile d.messages.length
        (appendMessage env (str "user") content d full).1 := rfl
  refine ⟨?_, rfl, ?_, ?_⟩
  · unfold recapRun
    by_cases ht : latestUserTask history = []
    · rw [if_pos ht]
    · rw [if_neg ht, hsolve]
  · rw [hrec1, truncateFile_length]
    exact Nat.min_le_right _ _
  · intro hest
    have hnofire := maybeCompress_under_threshold env true
      { messages := d.messages ++ [⟨str "user", content, none, none⟩]
        rounds := countRounds (d.messages ++ [⟨str "user", content, none, none⟩])
        compressed := d.compressed } hest
    constructor
    · rw [hrec1, happ1, hnofire]
      unfold truncateFile
      rw [if_neg (by simp)]
      exact List.take_left' rfl
    · intro hfl
      have hrec2 : (runTaskCancelled env content d full).2.2 =
          truncateFile d.messages.length
            (appendMessage env (str "user") content d full).2 := rfl
      have happ2 : (appendMessage env (str "user") content d full).2 =
          appendFull [⟨str "user", content, none, none⟩] full := by
        rw [appendMessage_eq, humsg,
          if_pos (by decide : str "user" ≠ str "assistant")]
      rw [hrec2, happ2]
      unfold appendFull truncateFile
      rw [if_neg (by simp [hfl])]
      exact List.take_left' hfl

/-- Witness for C5 (amended): cancelled run yields no reply and rollback
restores the 2-message record and its mirror exactly. -/
theorem run_task_cancelled_spec_witness :
    recapRun exRecapEnvCancel 3 20 [] = ([], []) ∧
    (runTaskCancelled exHistEnv (str "hi") exC5W exC5W).1 = none ∧
    (runTaskCancelled exHistEnv (str "hi") exC5W exC5W).2.1.messages.length ≤
      exC5W.messages.length ∧
    (runTaskCancelled exHistEnv (str "hi") exC5W exC5W).2.1.messages =
      exC5W.messages ∧
    (runTaskCancelled exHistEnv (str "hi") exC5W exC5W).2.2.messages =
      exC5W.messages :=
  ⟨(run_task_cancelled_spec exHistEnv exRecapEnvCancel (str "hi") exC5W exC5W
      3 20 [] rfl).1,
   (run_task_cancelled_spec exHistEnv exRecapEnvCancel (str "hi") exC5W exC5W
      3 20 [] rfl).2.1,
   (run_task_cancelled_spec exHistEnv exRecapEnvCancel (str "hi") exC5W exC5W
      3 20 [] rfl).2.2.1,
   ((run_task_cancelled_spec exHistEnv exRecapEnvCancel (str "hi") exC5W exC5W
      3 20 [] rfl).2.2.2 (by decide)).1,
   ((run_task_cancelled_spec exHistEnv exRecapEnvCancel (str "hi") exC5W exC5W
      3 20 [] rfl).2.2.2 (by decide)).2 rfl⟩

/-- The estimate of the C5 record after appending the oversized user
message: `ceil(240048 / 4)`. -/
theorem estimate_exC5 :
    estimateTokens (exC5D.messages ++ [⟨str "user", bigStr, none, none⟩]) =
      60012 := by
  have hbig : bigStr.length = 240000 := List.length_replicate 240000 'a'
  have h1 : msgChars ⟨str "user", str "a", none, none⟩ = 6 := by decide
  have h2 : msgChars ⟨str "assistant", str "b", none, none⟩ = 11 := by decide
  have h3 : msgChars ⟨str "user", str "c", none, none⟩ = 6 := by decide
  have h4 : msgChars ⟨str "assistant", str "d", none, none⟩ = 11 := by decide
  have h5 : msgChars ⟨str "user", str "e", none, none⟩ = 6 := by decide
  rw [estimateTokens_eq]
  rw [show exC5D.messages ++ [⟨str "user", bigStr, none, none⟩] =
    [⟨str "user", str "a", none, none⟩,
     ⟨str "assistant", str "b", none, none⟩,
     ⟨str "user", str "c", none, none⟩,
     ⟨str "assistant", str "d", none, none⟩,
     ⟨str "user", str "e", none, none⟩,
     ⟨str "user", bigStr, none, none⟩] from rfl]
  rw [List.map_cons, List.map_cons, List.map_cons, List.map_cons,
    List.map_cons, List.map_cons, List.map_nil,
    h1, h2, h3, h4, h5, msgChars_user,
    List.sum_cons, List.sum_cons, List.sum_cons, List.sum_cons,
    List.sum_cons, List.sum_cons, List.sum_nil, hbig]
  norm_num

/-- C5 counterexample: cancelling after appending an oversized user message
rolls back to only 4 stored messages, below the baseline of 5 — the
auto-compression that fired during the append cannot be undone by the
baseline truncation, so the claim's "count equal to the baseline" fails. -/
theorem run_task_cancel_rollback_below_baseline :
    exC5D.messages.length = 5 ∧
    (runTaskCancelled exHistEnv bigStr exC5D exC5D).1 = none ∧
    (runTaskCancelled exHistEnv bigStr exC5D exC5D).2.1.messages.length = 4 := by
  refine ⟨rfl, rfl, ?_⟩
  have humsg : normalizeMessage exHistEnv.spill ⟨str "user", bigStr, none, none⟩ =
      ⟨str "user", bigStr, none, none⟩ :=
    normalizeMessage_not_tool _ _ (by show ¬ str "user" = str "tool"; decide)
  have happ1 := appendMessage_fst exHistEnv (str "user") bigStr exC5D exC5D
    (by decide)
  rw [humsg] at happ1
  have he : ¬ estimateTokens (exC5D.messages ++
      [⟨str "user", bigStr, none, none⟩]) < 60000 := by
    rw [estimate_exC5]
    norm_num
  have hl : ¬ ((exC5D.messages ++
      [⟨str "user", bigStr, none, none⟩] : List Msg).length ≤ 3) := by
    rw [show (exC5D.messages ++
      [⟨str "user", bigStr, none, none⟩] : List Msg).length = 6 from rfl]
    norm_num
  obtain ⟨hfire, hmsgs⟩ := maybeCompress_fires exHistEnv
    { messages := exC5D.messages ++ [⟨str "user", bigStr, none, none⟩]
      rounds := countRounds (exC5D.messages ++ [⟨str "user", bigStr, none, none⟩])
      compressed := exC5D.compressed } he hl
  have h := runTaskCancelled_record exHistEnv bigStr exC5D exC5D
  rw [happ1] at h
  have hlen := congrArg List.length (congrArg HistoryData.messages h)
  rw [truncateFile_length] at hlen
  rw [hmsgs, List.length_cons, List.length_drop] at hlen
  rw [show (exC5D.messages ++
    [⟨str "user", bigStr, none, none⟩] : List Msg).length = 6 from rfl] at hlen
  rw [show exC5D.messages.length = 5 from rfl] at hlen
  rw [hlen]
  norm_num

/-- A non-firing `maybe_compress` leaves the record untouched. -/
theorem maybeCompress_not_fired (env : HistEnv) (trig : Bool) (d : HistoryData) :
    (maybeCompress env trig d).1 = false → (maybeCompress env trig d).2 = d := by
  unfold maybeCompress
  repeat' split
  all_goals intro h
  · rfl
  · rfl
  · rfl
  · simp at h

/-- A firing `maybe_compress` appends exactly one entry to the `compressed`
audit log. -/
theorem maybeCompress_fired_audit (env : HistEnv) (trig : Bool)
    (d : HistoryData) :
    (maybeCompress env trig d).1 = true →
      (maybeCompress env trig d).2.compressed.length =
        d.compressed.length + 1 := by
  unfold maybeCompress
  repeat' split
  all_goals intro h
  · simp at h
  · simp at h
  · simp at h
  · simp

/-- `maybe_compress` preserves the rounds bookkeeping. -/
theorem maybeCompress_rounds (env : HistEnv) (trig : Bool) (d : HistoryData)
    (hd : d.rounds = countRounds d.messages) :
    (maybeCompress env trig d).2.rounds =
      countRounds (maybeCompress env trig d).2.messages := by
  unfold maybeCompress
  repeat' split
  all_goals first | exact hd | rfl

/-- `_truncate_file` preserves the rounds bookkeeping. -/
theorem truncateFile_rounds (keep : Nat) (d : HistoryData)
    (hd : d.rounds = countRounds d.messages) :
    (truncateFile keep d).rounds = countRounds (truncateFile keep d).messages := by
  unfold truncateFile
  split
  · exact hd
  · rfl

/-- `append_message` recomputes rounds on both the record and the full
mirror. -/
theorem appendMessage_rounds (env : HistEnv) (role content : Str)
    (d full : HistoryData) :
    (appendMessage env role content d full).1.rounds =
      countRounds (appendMessage env role content d full).1.messages ∧
    (appendMessage env role content d full).2.rounds =
      countRounds (appendMessage env role content d full).2.messages := by
  rw [appendMessage_eq]
  constructor
  · split
    · exact maybeCompress_rounds env true _ rfl
    · rfl
  · split <;> rfl

/-- Unfolding `append_messages` without its intermediate bindings. -/
theorem appendMessages_eq (env : HistEnv) (msgs : List Msg)
    (d full : HistoryData) :
    appendMessages env msgs d full =
      (if msgs = [] then (d, full)
       else if (msgs.map (normalizeMessage env.spill)).any
           (fun m => m.role ≠ str "assistant") then
        ((maybeCompress env true
          { messages := d.messages ++ msgs.map (normalizeMessage env.spill)
            rounds := countRounds (d.messages ++ msgs.map (normalizeMessage env.spill))
            compressed := d.compressed }).2,
         appendFull msgs full)
       else
        ({ messages := d.messages ++ msgs.map (normalizeMessage env.spill)
           rounds := countRounds (d.messages ++ msgs.map (normalizeMessage env.spill))
           compressed := d.compressed },
         appendFull msgs full)) := rfl

/-- `append_messages` recomputes rounds on both the record and the full
mirror (the empty batch is a no-op and needs the invariant as input). -/
theorem appendMessages_rounds (env : HistEnv) (msgs : List Msg)
    (d full : HistoryData)
    (hd : d.rounds = countRounds d.messages)
    (hf : full.rounds = countRounds full.messages) :
    (appendMessages env msgs d full).1.rounds =
      countRounds (appendMessages env msgs d full).1.messages ∧
    (appendMessages env msgs d full).2.rounds =
      countRounds (appendMessages env msgs d full).2.messages := by
  rw [appendMessages_eq]
  split
  · exact ⟨hd, hf⟩
  · constructor
    · split
      · exact maybeCompress_rounds env true _ rfl
      · rfl
    · split <;> rfl

/-- C6: after every HistoryStore mutation (single append, batch append,
truncation, compression) the stored `rounds` equals
`min(#user, #assistant)` over the retained messages of the record and of
its full mirror; a firing compression appends exactly one audit-log entry,
and a non-firing one changes nothing. -/
theorem history_rounds_invariant (env : HistEnv) (role content : Str)
    (msgs : List Msg) (d full : HistoryData) (keep : Nat) (trig : Bool)
    (hd : d.rounds = countRounds d.messages)
    (hf : full.rounds = countRounds full.messages) :
    ((appendMessage env role content d full).1.rounds =
        countRounds (appendMessage env role content d full).1.messages ∧
      (appendMessage env role content d full).2.rounds =
        countRounds (appendMessage env role content d full).2.messages) ∧
    ((appendMessages env msgs d full).1.rounds =
        countRounds (appendMessages env msgs d full).1.messages ∧
      (appendMessages env msgs d full).2.rounds =
        countRounds (appendMessages env msgs d full).2.messages) ∧
    ((truncateFile keep d).rounds = countRounds (truncateFile keep d).messages) ∧
    ((maybeCompress env trig d).2.rounds =
      countRounds (maybeCompress env trig d).2.messages) ∧
    ((maybeCompress env trig d).1 = true →
      (maybeCompress env trig d).2.compressed.length =
        d.compressed.length + 1) ∧
    ((maybeCompress env trig d).1 = false →
      (maybeCompress env trig d).2 = d) :=
  ⟨appendMessage_rounds env role content d full,
   appendMessages_rounds env msgs d full hd hf,
   truncateFile_rounds keep d hd,
   maybeCompress_rounds env trig d hd,
   maybeCompress_fired_audit env trig d,
   maybeCompress_not_fired env trig d⟩

/-- Witness for C6 at a concrete record: appending a user message and a
batch keeps the rounds bookkeeping exact on record and mirror. -/
theorem history_rounds_invariant_witness :
    ((appendMessage exHistEnv (str "user") (str "x") exC5W exC5W).1.rounds =
        countRounds (appendMessage exHistEnv (str "user") (str "x")
          exC5W exC5W).1.messages ∧
      (appendMessage exHistEnv (str "user") (str "x") exC5W exC5W).2.rounds =
        countRounds (appendMessage exHistEnv (str "user") (str "x")
          exC5W exC5W).2.messages) ∧
    ((appendMessages exHistEnv [⟨str "assistant", str "y", none, none⟩]
        exC5W exC5W).1.rounds =
      countRounds (appendMessages exHistEnv
        [⟨str "assistant", str "y", none, none⟩] exC5W exC5W).1.messages ∧
      (appendMessages exHistEnv [⟨str "assistant", str "y", none, none⟩]
        exC5W exC5W).2.rounds =
      countRounds (appendMessages exHistEnv
        [⟨str "assistant", str "y", none, none⟩] exC5W exC5W).2.messages) :=
  ⟨(history_rounds_invariant exHistEnv (str "user") (str "x")
      [⟨str "assistant", str "y", none, none⟩] exC5W exC5W 1 true
      (by decide) (by decide)).1,
   (history_rounds_invariant exHistEnv (str "user") (str "x")
      [⟨str "assistant", str "y", none, none⟩] exC5W exC5W 1 true
      (by decide) (by decide)).2.1⟩

/-- C10: the pending map holds at most one question slot per user id
(`ask` overwrites the slot, registering a fresh unanswered entry); `provide`
on a pending question returns true and signals the blocked `ask`, which
then returns exactly the whitespace-stripped response and clears the slot;
`provide` with nothing pending returns false and leaves the map unchanged;
`cancel` resolves a pending `ask` with the empty string and is a no-op when
nothing is pending. -/
theorem ask_human_manager_spec (m : PendingMap)
    (userId question response : Str) (e : PendingEntry) :
    (askStart userId question m) userId = some ⟨none, false, question⟩ ∧
    (m userId = some e →
      (provide userId response m).1 = true ∧
      (askFinish userId (provide userId response m).2).1 =
        stripChars response ∧
      (askFinish userId (provide userId response m).2).2 userId = none) ∧
    (m userId = none → provide userId response m = (false, m)) ∧
    (m userId = some e →
      (askFinish userId (cancelAsk userId m)).1 = []) ∧
    (m userId = none → cancelAsk userId m = m) := by
  refine ⟨?_, ?_, ?_, ?_, ?_⟩
  · simp [askStart]
  · intro h
    refine ⟨?_, ?_, ?_⟩ <;> simp [provide, askFinish, h]
  · intro h
    simp [provide, h]
  · intro h
    simp [cancelAsk, askFinish, h, stripChars]
  · intro h
    simp [cancelAsk, h]

/-- Witness for C10 on the empty pending map and user id "u". -/
theorem ask_human_manager_spec_witness :
    (askStart (str "u") (str "q") (fun _ => none)) (str "u") =
      some ⟨none, false, str "q"⟩ ∧
    (provide (str "u") (str " yes ")
      (askStart (str "u") (str "q") (fun _ => none))).1 = true ∧
    (askFinish (str "u") (provide (str "u") (str " yes ")
      (askStart (str "u") (str "q") (fun _ => none))).2).1 =
      stripChars (str " yes ") ∧
    provide (str "u") (str " yes ") (fun _ => none) =
      (false, (fun _ => none : PendingMap)) ∧
    (askFinish (str "u") (cancelAsk (str "u")
      (askStart (str "u") (str "q") (fun _ => none)))).1 = [] ∧
    cancelAsk (str "u") (fun _ => none) = (fun _ => none : PendingMap) :=
  ⟨(ask_human_manager_spec (fun _ => none) (str "u") (str "q") (str " yes ")
      ⟨none, false, str "q"⟩).1,
   ((ask_human_manager_spec (askStart (str "u") (str "q") (fun _ => none))
      (str "u") (str "q") (str " yes ") ⟨none, false, str "q"⟩).2.1
      (by decide)).1,
   ((ask_human_manager_spec (askStart (str "u") (str "q") (fun _ => none))
      (str "u") (str "q") (str " yes ") ⟨none, false, str "q"⟩).2.1
      (by decide)).2.1,
   (ask_human_manager_spec (fun _ => none) (str "u") (str "q") (str " yes ")
      ⟨none, false, str "q"⟩).2.2.1 rfl,
   (ask_human_manager_spec (askStart (str "u") (str "q") (fun _ => none))
      (str "u") (str "q") (str " yes ") ⟨none, false, str "q"⟩).2.2.2.1
      (by decide),
   (ask_human_manager_spec (fun _ => none) (str "u") (str "q") (str " yes ")
      ⟨none, false, str "q"⟩).2.2.2.2 rfl⟩
